import Mathlib

/-!
Verification development for the wakame/mozuku Japanese text-analysis core.

Modelling conventions, used throughout:

* A JavaScript string is modelled as a Lean `String`; character positions are
  code-point indices into `String.data`.  All texts handled by the system are
  Japanese/BMP text, where a JavaScript UTF-16 index, a code-point index and
  the value added by the `char.length` accumulation in the source coincide
  (every BMP character has `char.length = 1`).
* External engines (the MeCab/kuromoji morphological backend, the JS regex
  matcher and the tree-sitter parser) are black boxes per the specification;
  their outputs (raw token records, regex matches, AST nodes) are inputs of
  the embedded functions.
* JavaScript `number` values occurring here are all non-negative integers
  (offsets, lengths, counts, timestamps), modelled as `Nat`; the Japanese
  character ratio is an exact rational (`ℚ`), which agrees with the IEEE
  double computation at every comparison performed in the development.
-/

namespace Wakame

/-- Line/character position, the `{ line, character }` objects of the source. -/
structure Position where
  line : Nat
  character : Nat
deriving DecidableEq, Repr

/-- `TokenModifiers` from `shared/types.ts`. -/
structure TokenModifiers where
  proper : Bool
  numeric : Bool
  kana : Bool
  kanji : Bool
deriving DecidableEq, Repr

/-- Canonical `Token` from `shared/types.ts`.  `modifiers` is optional there
(the kuromoji variant of the analyzer omits it), hence `Option`.  Field
defaults only abbreviate test data; they play no semantic role. -/
structure Token where
  surface : String := ""
  pos : String := "*"
  posDetail1 : String := "*"
  posDetail2 : String := "*"
  posDetail3 : String := "*"
  conjugationType : String := "*"
  conjugationForm : String := "*"
  baseForm : String := ""
  reading : String := ""
  pronunciation : String := ""
  offset : Nat := 0
  length : Nat := 0
  modifiers : Option TokenModifiers := none
deriving DecidableEq, Repr

/-- `Sentence` from `shared/types.ts`. -/
structure Sentence where
  text : String
  start : Nat
  «end» : Nat
  tokens : List Token
deriving DecidableEq, Repr

/-- `DiagnosticInfo` from `shared/types.ts` (severity 1..4 as a `Nat`). -/
structure DiagnosticInfo where
  start : Position
  «end» : Position
  message : String
  severity : Nat
  code : String
  source : String
deriving DecidableEq, Repr

/-- The `rules` record of `WakameConfig` — exactly the fields read by
`grammar.ts` (the wakame `shared/types.ts` itself is not in the sources; the
field set matches the mozuku `MozukuConfig.rules` analog). -/
structure WakameRules where
  commaLimit : Bool
  commaLimitMax : Nat
  adversativeGa : Bool
  adversativeGaMax : Nat
  duplicateParticle : Bool
  adjacentParticles : Bool
  conjunctionRepeat : Bool
  raDropping : Bool
deriving DecidableEq, Repr

/-- `WakameConfig`, restricted to the part consumed by the grammar engine. -/
structure WakameConfig where
  rules : WakameRules
deriving DecidableEq, Repr

/-- JavaScript `text.slice(a, b)` for `0 ≤ a ≤ b` (code-point indices). -/
def jsSlice (s : String) (a b : Nat) : String :=
  String.mk ((s.data.drop a).take (b - a))

/-- `offsetToPosition` loop body from `grammar.ts` lines 11-32: walk the
characters, breaking once `currentOffset >= offset`; each character advances
`currentOffset` by its `char.length` (1 for the BMP text modelled here). -/
def offsetToPositionGo (offset : Nat) : List Char → Nat → Nat → Nat → Position
  | [], line, character, _ => { line := line, character := character }
  | c :: rest, line, character, currentOffset =>
    if offset ≤ currentOffset then { line := line, character := character }
    else if c = '\n' then offsetToPositionGo offset rest (line + 1) 0 (currentOffset + 1)
    else offsetToPositionGo offset rest line (character + 1) (currentOffset + 1)

/-- `offsetToPosition` from `grammar.ts`. -/
def offsetToPosition (text : String) (offset : Nat) : Position :=
  offsetToPositionGo offset text.data 0 0 0

/-- `isParticle` from `grammar.ts`. -/
def isParticle (token : Token) : Bool :=
  token.pos == "助詞"

/-- `isAdversativeGa` from `grammar.ts`. -/
def isAdversativeGa (token : Token) : Bool :=
  token.pos == "助詞" && token.posDetail1 == "接続助詞" && token.baseForm == "が"

/-- `isConjunction` from `grammar.ts`. -/
def isConjunction (token : Token) : Bool :=
  token.pos == "接続詞"

/-- `getParticleKey` from `grammar.ts`: the template string `pos,posDetail1`. -/
def getParticleKey (token : Token) : String :=
  token.pos ++ "," ++ token.posDetail1

/-- `isTargetVerb` from `grammar.ts` lines 70-77. -/
def isTargetVerb (token : Token) : Bool :=
  token.pos == "動詞" && token.posDetail1 == "自立" &&
  token.conjugationType == "一段" && token.conjugationForm == "未然形"

/-- `isRaWord` from `grammar.ts` lines 82-88. -/
def isRaWord (token : Token) : Bool :=
  token.pos == "動詞" && token.posDetail1 == "接尾" && token.baseForm == "れる"

/-- `isSpecialRaCase` from `grammar.ts` lines 93-98. -/
def isSpecialRaCase (token : Token) : Bool :=
  token.pos == "動詞" && (token.baseForm == "来れる" || token.baseForm == "見れる")

/-- `countCommas` from `grammar.ts`: occurrences of the single character 「、」. -/
def countCommas (text : String) : Nat :=
  text.data.count '、'

/-- `checkCommaLimit` from `grammar.ts` lines 111-136. -/
def checkCommaLimit (text : String) (sentences : List Sentence)
    (config : WakameConfig) : List DiagnosticInfo :=
  if !config.rules.commaLimit then [] else
  sentences.filterMap fun sentence =>
    let commaCount := countCommas sentence.text
    if commaCount > config.rules.commaLimitMax then
      some
        { start := offsetToPosition text sentence.start
          «end» := offsetToPosition text sentence.«end»
          message := "一文に使用できる読点「、」は最大" ++
            toString config.rules.commaLimitMax ++ "個までです (現在" ++
            toString commaCount ++ "個)"
          severity := 2
          code := "comma-limit"
          source := "wakame" }
    else none

/-- `checkAdversativeGa` from `grammar.ts` lines 142-173. -/
def checkAdversativeGa (text : String) (sentences : List Sentence)
    (config : WakameConfig) : List DiagnosticInfo :=
  if !config.rules.adversativeGa then [] else
  sentences.filterMap fun sentence =>
    let count := sentence.tokens.countP isAdversativeGa
    if count > config.rules.adversativeGaMax then
      some
        { start := offsetToPosition text sentence.start
          «end» := offsetToPosition text sentence.«end»
          message := "逆接の接続助詞「が」が同一文で" ++
            toString (config.rules.adversativeGaMax + 1) ++ "回以上使われています (" ++
            toString count ++ "回)"
          severity := 2
          code := "adversative-ga"
          source := "wakame" }
    else none

/-- Per-sentence scanner of `checkDuplicateParticle` (`grammar.ts` lines
188-221), with the loop state `(lastSurface, lastKey, lastToken, streak)`
made explicit.  The `streak2 > 1` test reproduces the source's `streak > 1`
check performed right after the increment. -/
def dupGo (text : String) : List Token → String → String → Option Token → Nat →
    List DiagnosticInfo
  | [], _, _, _, _ => []
  | token :: rest, lastSurface, lastKey, lastToken, streak =>
    if !isParticle token then dupGo text rest lastSurface lastKey lastToken streak
    else
      let currentKey := getParticleKey token
      match lastToken with
      | some lt =>
        if token.surface == lastSurface && currentKey == lastKey then
          let streak2 := streak + 1
          let tail := dupGo text rest token.surface currentKey (some token) streak2
          if streak2 > 1 then
            { start := offsetToPosition text lt.offset
              «end» := offsetToPosition text (token.offset + token.surface.length)
              message := "同じ助詞「" ++ token.surface ++ "」が連続しています"
              severity := 2
              code := "duplicate-particle"
              source := "wakame" } :: tail
          else tail
        else dupGo text rest token.surface currentKey (some token) 1
      | none => dupGo text rest token.surface currentKey (some token) 1

/-- `checkDuplicateParticle` from `grammar.ts` lines 179-224. -/
def checkDuplicateParticle (text : String) (sentences : List Sentence)
    (config : WakameConfig) : List DiagnosticInfo :=
  if !config.rules.duplicateParticle then [] else
  (sentences.map fun sentence => dupGo text sentence.tokens "" "" none 1).flatten

/-- Per-sentence scanner of `checkAdjacentParticles` (`grammar.ts` lines
239-277) with state `(prevIsParticle, prevKey, prevToken, streak)`;
`prevKey`/`prevToken` are updated only when the current token is a particle,
`prevIsParticle` always, exactly as in the source. -/
def adjGo (text : String) : List Token → Bool → String → Option Token → Nat →
    List DiagnosticInfo
  | [], _, _, _, _ => []
  | token :: rest, prevIsParticle, prevKey, prevToken, streak =>
    let currentIsParticle := isParticle token
    let currentKey := getParticleKey token
    let isAdjacent :=
      match prevToken with
      | some pt => token.offset == pt.offset + pt.surface.length
      | none => false
    let hit := currentIsParticle && prevIsParticle && (currentKey == prevKey) && isAdjacent
    let streak2 := if hit then streak + 1 else 1
    let nextPrevKey := if currentIsParticle then currentKey else prevKey
    let nextPrevToken := if currentIsParticle then some token else prevToken
    let tail := adjGo text rest currentIsParticle nextPrevKey nextPrevToken streak2
    if hit && streak2 > 1 then
      match prevToken with
      | some pt =>
        { start := offsetToPosition text pt.offset
          «end» := offsetToPosition text (token.offset + token.surface.length)
          message := "助詞が連続して使われています"
          severity := 2
          code := "adjacent-particles"
          source := "wakame" } :: tail
      | none => tail
    else tail

/-- `checkAdjacentParticles` from `grammar.ts` lines 230-281. -/
def checkAdjacentParticles (text : String) (sentences : List Sentence)
    (config : WakameConfig) : List DiagnosticInfo :=
  if !config.rules.adjacentParticles then [] else
  (sentences.map fun sentence => adjGo text sentence.tokens false "" none 1).flatten

/-- Scanner of `checkConjunctionRepeat` (`grammar.ts` lines 302-334) over the
flattened token stream, with state `(lastSurface, lastToken, streak)`. -/
def conjGo (text : String) : List Token → String → Option Token → Nat →
    List DiagnosticInfo
  | [], _, _, _ => []
  | token :: rest, lastSurface, lastToken, streak =>
    if !isConjunction token then conjGo text rest lastSurface lastToken streak
    else
      match lastToken with
      | some lt =>
        let separatedByNewline :=
          (jsSlice text (lt.offset + lt.surface.length) token.offset).data.contains '\n'
        if token.surface == lastSurface && !separatedByNewline then
          let streak2 := streak + 1
          let tail := conjGo text rest token.surface (some token) streak2
          if streak2 > 1 then
            { start := offsetToPosition text lt.offset
              «end» := offsetToPosition text (token.offset + token.surface.length)
              message := "同じ接続詞「" ++ token.surface ++ "」が連続しています"
              severity := 2
              code := "conjunction-repeat"
              source := "wakame" } :: tail
          else tail
        else conjGo text rest token.surface (some token) 1
      | none => conjGo text rest token.surface (some token) 1

/-- `checkConjunctionRepeat` from `grammar.ts` lines 287-337: all sentences'
tokens are flattened into one stream before scanning. -/
def checkConjunctionRepeat (text : String) (sentences : List Sentence)
    (config : WakameConfig) : List DiagnosticInfo :=
  if !config.rules.conjunctionRepeat then [] else
  conjGo text (sentences.map Sentence.tokens).flatten "" none 1

/-- Bigram scanner of `checkRaDropping` (`grammar.ts` lines 369-385): walks
the sentence tokens carrying `prevToken`, flagging a target verb in 未然形
immediately followed by the 接尾「れる」 token. -/
def raGo (text : String) : Option Token → List Token → List DiagnosticInfo
  | _, [] => []
  | prevToken, token :: rest =>
    let tail := raGo text (some token) rest
    match prevToken with
    | some pt =>
      if isTargetVerb pt && isRaWord token then
        { start := offsetToPosition text pt.offset
          «end» := offsetToPosition text (token.offset + token.surface.length)
          message := "ら抜き言葉を使用しています"
          severity := 2
          code := "ra-dropping"
          source := "wakame" } :: tail
      else tail
    | none => tail

/-- `checkRaDropping` from `grammar.ts` lines 343-389: per sentence, first the
single-token special cases 来れる/見れる, then the two-token combinations. -/
def checkRaDropping (text : String) (sentences : List Sentence)
    (config : WakameConfig) : List DiagnosticInfo :=
  if !config.rules.raDropping then [] else
  (sentences.map fun sentence =>
    (sentence.tokens.filterMap fun token =>
      if isSpecialRaCase token then
        some
          { start := offsetToPosition text token.offset
            «end» := offsetToPosition text (token.offset + token.surface.length)
            message := "ら抜き言葉を使用しています"
            severity := 2
            code := "ra-dropping"
            source := "wakame" }
      else none)
    ++ raGo text none sentence.tokens).flatten

/-- `checkGrammar` from `grammar.ts` lines 394-409: the six rules' outputs
concatenated in the fixed source order. -/
def checkGrammar (text : String) (sentences : List Sentence)
    (config : WakameConfig) : List DiagnosticInfo :=
  checkCommaLimit text sentences config ++
  checkAdversativeGa text sentences config ++
  checkDuplicateParticle text sentences config ++
  checkAdjacentParticles text sentences config ++
  checkConjunctionRepeat text sentences config ++
  checkRaDropping text sentences config

/-- `sentenceEnders` from `analyzer.ts` `splitSentences`. -/
def sentenceEnders : List String := ["。", "！", "？", "!", "?", "\n"]

/-- The sentence-closing test of `splitSentences` (`analyzer.ts` lines
120-123), with the source's redundant second disjunct kept. -/
def isSentenceEnd (token : Token) : Bool :=
  sentenceEnders.contains token.surface ||
  (token.pos == "記号" && sentenceEnders.contains token.surface)

/-- Loop of `splitSentences` (`analyzer.ts` lines 109-155) with the mutable
`currentStart`/`currentTokens` state made explicit; the final case is the
trailing-sentence handling of lines 141-152 (guarded by
`currentTokens.length > 0`, whose last element the source reads). -/
def splitSentencesGo (text : String) : List Token → Nat → List Token → List Sentence
  | [], currentStart, currentTokens =>
    match currentTokens.getLast? with
    | none => []
    | some lastToken =>
      let sentenceEnd := lastToken.offset + lastToken.surface.length
      [{ text := jsSlice text currentStart sentenceEnd
         start := currentStart
         «end» := sentenceEnd
         tokens := currentTokens }]
  | token :: rest, currentStart, currentTokens =>
    let currentTokens2 := currentTokens ++ [token]
    if isSentenceEnd token then
      let sentenceEnd := token.offset + token.surface.length
      { text := jsSlice text currentStart sentenceEnd
        start := currentStart
        «end» := sentenceEnd
        tokens := currentTokens2 } :: splitSentencesGo text rest sentenceEnd []
    else
      splitSentencesGo text rest currentStart currentTokens2

/-- `splitSentences` from `analyzer.ts` (identical in the kuromoji and MeCab
variants). -/
def splitSentences (text : String) (tokens : List Token) : List Sentence :=
  splitSentencesGo text tokens 0 []

/-- `pat` occurs in `text` starting at code-point index `i`. -/
def occursAt (text pat : List Char) (i : Nat) : Bool :=
  decide (pat = (text.drop i).take pat.length) && decide (i + pat.length ≤ text.length)

/-- Search for the first occurrence of `pat` at an index `≥ i`, examining at
most `fuel` candidate positions. -/
def findFromAux (text pat : List Char) : Nat → Nat → Option Nat
  | _, 0 => none
  | i, fuel + 1 => if occursAt text pat i then some i else findFromAux text pat (i + 1) fuel

/-- JavaScript `text.indexOf(pat, fromIndex)` (result `-1` becomes `none`):
the start position is clamped to the string length — so an empty `pat` is
found at `min fromIndex text.length` — and the least matching index at or
after it is returned. -/
def jsIndexOf (text pat : List Char) (fromIndex : Nat) : Option Nat :=
  let start := min fromIndex text.length
  findFromAux text pat start (text.length + 1 - start)

/-- Raw MeCab record (`mecabAnalyzer.ts` / `mecab-wasm`); fields are `Option`
because `tokenize` defaults each with `??`. -/
structure MecabToken where
  word : String := ""
  pos : Option String := none
  pos_detail1 : Option String := none
  pos_detail2 : Option String := none
  pos_detail3 : Option String := none
  conjugation1 : Option String := none
  conjugation2 : Option String := none
  dictionary_form : Option String := none
  reading : Option String := none
  pronunciation : Option String := none
deriving DecidableEq, Repr

/-- `c` is an ASCII or full-width digit (the class `[0-9０-９]`). -/
def isDigitChar (c : Char) : Bool :=
  (0x30 ≤ c.toNat && c.toNat ≤ 0x39) || (0xFF10 ≤ c.toNat && c.toNat ≤ 0xFF19)

/-- `c` is in the Hiragana block `[぀-ゟ]`. -/
def isHiragana (c : Char) : Bool :=
  0x3040 ≤ c.toNat && c.toNat ≤ 0x309F

/-- `c` is in the Katakana block `[゠-ヿ]`. -/
def isKatakana (c : Char) : Bool :=
  0x30A0 ≤ c.toNat && c.toNat ≤ 0x30FF

/-- `c` is a CJK Unified Ideograph `[一-鿿]`. -/
def isKanji (c : Char) : Bool :=
  0x4E00 ≤ c.toNat && c.toNat ≤ 0x9FFF

/-- `computeModifiers` from the MeCab analyzer (`part_002` lines 46-63); the
`proper`/`numeric` checks read the raw (undefaulted) detail fields. -/
def computeModifiers (mt : MecabToken) : TokenModifiers :=
  { proper := mt.pos_detail1 == some "固有名詞"
    numeric := mt.pos_detail1 == some "数" || mt.pos_detail2 == some "数" ||
      (!mt.word.data.isEmpty && mt.word.data.all isDigitChar)
    kana := mt.word.data.any isHiragana || mt.word.data.any isKatakana
    kanji := mt.word.data.any isKanji }

/-- UTF-8 byte length of a string — `Buffer.byteLength(s, 'utf-8')`. -/
def utf8ByteLength (s : String) : Nat :=
  (s.data.map Char.utf8Size).sum

/-- Offset re-derivation loop of `tokenize` (`part_002` lines 78-102): for
each raw record, `indexOf` the surface at or after the cursor, fall back to
the cursor when absent, and advance the cursor past the surface. -/
def tokenizeGo (text : String) : Nat → List MecabToken → List Token
  | _, [] => []
  | currentOffset, mt :: rest =>
    let tokenStart := jsIndexOf text.data mt.word.data currentOffset
    let offset := tokenStart.getD currentOffset
    { surface := mt.word
      pos := mt.pos.getD "*"
      posDetail1 := mt.pos_detail1.getD "*"
      posDetail2 := mt.pos_detail2.getD "*"
      posDetail3 := mt.pos_detail3.getD "*"
      conjugationType := mt.conjugation1.getD "*"
      conjugationForm := mt.conjugation2.getD "*"
      baseForm := mt.dictionary_form.getD mt.word
      reading := mt.reading.getD ""
      pronunciation := mt.pronunciation.getD ""
      offset := offset
      length := utf8ByteLength mt.word
      modifiers := some (computeModifiers mt) }
      :: tokenizeGo text (offset + mt.word.length) rest

/-- `tokenize` from the MeCab analyzer (`part_002` lines 68-105): throws when
the backend is not ready, otherwise adapts the backend's raw records
(`mecabTokens`, an input here since the backend is external). -/
def tokenize (ready : Bool) (mecabTokens : List MecabToken) (text : String) :
    Except String (List Token) :=
  if !ready then
    Except.error "Tokenizer not initialized. Call initializeTokenizer() first."
  else
    Except.ok (tokenizeGo text 0 mecabTokens)

/-- `c` matches the Japanese class
`[぀-ゟ゠-ヿ一-鿿　-〿]`. -/
def isJapaneseChar (c : Char) : Bool :=
  (0x3040 ≤ c.toNat && c.toNat ≤ 0x309F) ||
  (0x30A0 ≤ c.toNat && c.toNat ≤ 0x30FF) ||
  (0x4E00 ≤ c.toNat && c.toNat ≤ 0x9FFF) ||
  (0x3000 ≤ c.toNat && c.toNat ≤ 0x303F)

/-- `calculateJapaneseRatio` from the analyzer: 0 on the empty string, else
matches of the Japanese class divided by the string length (exact rational in
place of the source's floating division). -/
def calculateJapaneseRatio (text : String) : ℚ :=
  if text.length = 0 then 0
  else (text.data.countP isJapaneseChar : ℚ) / (text.length : ℚ)

/-- `CommentRange` from `shared/types.ts`. -/
structure CommentRange where
  start : Nat
  «end» : Nat
  text : String
  original : String
deriving DecidableEq, Repr

/-- The JavaScript regex whitespace class `\s` (the characters relevant to
the texts handled here). -/
def isJsWs (c : Char) : Bool :=
  c = ' ' || c = '\t' || c = '\n' || c = '\r' ||
  c.toNat = 0x0B || c.toNat = 0x0C || c.toNat = 0xA0 ||
  c.toNat = 0x3000 || c.toNat = 0xFEFF

/-- Remove trailing `\s` characters. -/
def dropTrailingWs (s : List Char) : List Char :=
  (s.reverse.dropWhile isJsWs).reverse

/-- `str.replace(/^MARKER\s*/, '')`: when the string starts with the marker,
remove it together with the following whitespace run. -/
def stripAnchoredPrefix (marker s : List Char) : List Char :=
  if marker = s.take marker.length then (s.drop marker.length).dropWhile isJsWs
  else s

/-- `str.replace(/\s*MARKER$/, '')`: when the string ends with the marker,
remove it together with the whitespace run immediately before it (the
leftmost match of the anchored pattern). -/
def stripAnchoredSuffix (marker s : List Char) : List Char :=
  if marker.length ≤ s.length && marker = s.drop (s.length - marker.length) then
    dropTrailingWs (s.take (s.length - marker.length))
  else s

/-- Three single-quote characters, the Python `'''` docstring marker. -/
def tripleSingleQuote : List Char :=
  [Char.ofNat 39, Char.ofNat 39, Char.ofNat 39]

/-- Three double-quote characters, the Python `\"\"\"` docstring marker. -/
def tripleDoubleQuote : List Char :=
  "\"\"\"".data

/-- `stripMarkers` — the `.replace` chain of `extractComments` (`part_002`
lines 216-227), applied in the source's order. -/
def stripMarkers (original : String) : String :=
  let s := original.data
  let s := stripAnchoredPrefix "//".data s
  let s := stripAnchoredPrefix "/*".data s
  let s := stripAnchoredSuffix "*/".data s
  let s := stripAnchoredPrefix "#".data s
  let s := stripAnchoredPrefix "%".data s
  let s := stripAnchoredPrefix "<!--".data s
  let s := stripAnchoredSuffix "-->".data s
  let s := stripAnchoredPrefix tripleSingleQuote s
  let s := stripAnchoredSuffix tripleSingleQuote s
  let s := stripAnchoredPrefix tripleDoubleQuote s
  let s := stripAnchoredSuffix tripleDoubleQuote s
  String.mk s

/-- A regex match as consumed by `extractComments`: `match.index` and
`match[0]` (the regex engine itself is external). -/
structure RegexMatch where
  index : Nat
  matched : String
deriving DecidableEq, Repr

/-- Candidate-retention stage of `extractComments` (`part_002` lines
210-239): each match has its markers stripped and is pushed exactly when
`calculateJapaneseRatio(extracted) > 0.1` — the threshold is hardcoded, the
function takes no `minJapaneseRatio` parameter. -/
def extractComments (matchList : List RegexMatch) : List CommentRange :=
  matchList.filterMap fun m =>
    let original := m.matched
    let extracted := stripMarkers original
    if calculateJapaneseRatio extracted > 1 / 10 then
      some
        { start := m.index
          «end» := m.index + original.length
          text := extracted
          original := original }
    else none

/-- ECMAScript line terminators, after which a multiline `^` matches. -/
def isLineTerminator (c : Char) : Bool :=
  c = '\n' || c = '\r' || c.toNat = 0x2028 || c.toNat = 0x2029

/-- One attempted match of `/^\s*\*\s?/` at a line start: the greedy
whitespace run, then `*`, then at most one whitespace character.  Returns the
remainder after the match and whether the last consumed character was a line
terminator (which is where the next `^` may match). -/
def starLineMatch (l : List Char) : Option (List Char × Bool) :=
  let ws := l.takeWhile isJsWs
  match l.drop ws.length with
  | c :: rest =>
    if c = '*' then
      match rest with
      | c2 :: rest2 =>
        if isJsWs c2 then some (rest2, isLineTerminator c2) else some (rest, false)
      | [] => some ([], false)
    else none
  | [] => none

/-- Global scan of `str.replace(/^\s*\*\s?/gm, '')` (`part_001` line 203):
at each line start try the pattern, drop the match and resume right after it;
elsewhere copy the character.  Every match consumes at least one character,
so fuel equal to the string length suffices. -/
def stripStarLinesGo : Nat → Bool → List Char → List Char
  | 0, _, l => l
  | _ + 1, _, [] => []
  | fuel + 1, atLineStart, c :: rest =>
    if atLineStart then
      match starLineMatch (c :: rest) with
      | some (rem, lastWasNl) => stripStarLinesGo fuel lastWasNl rem
      | none => c :: stripStarLinesGo fuel (isLineTerminator c) rest
    else c :: stripStarLinesGo fuel (isLineTerminator c) rest

/-- `str.replace(/^\s*\*\s?/gm, '')`. -/
def stripStarLines (s : List Char) : List Char :=
  stripStarLinesGo s.length true s

/-- `str.replace(/^('''|\"\"\")\s*/, '')`. -/
def stripTripleQuotePrefix (s : List Char) : List Char :=
  if tripleSingleQuote = s.take 3 || tripleDoubleQuote = s.take 3 then
    (s.drop 3).dropWhile isJsWs
  else s

/-- `str.replace(/\s*('''|\"\"\")$/, '')`. -/
def stripTripleQuoteSuffix (s : List Char) : List Char :=
  let s2 := stripAnchoredSuffix tripleSingleQuote s
  if s2 = s then stripAnchoredSuffix tripleDoubleQuote s else s2

/-- JavaScript `String.prototype.trim`. -/
def jsTrim (s : List Char) : List Char :=
  dropTrailingWs (s.dropWhile isJsWs)

/-- `sanitizeComment` from the tree-sitter extractor (`part_001` lines
188-220): per-language marker stripping — including the per-line asterisk
residue removal for the C-like block comments — followed by `.trim()`. -/
def sanitizeComment (text : String) (languageId : String) : String :=
  let s := text.data
  let sanitized :=
    if languageId == "javascript" || languageId == "javascriptreact" ||
        languageId == "typescript" || languageId == "typescriptreact" ||
        languageId == "c" || languageId == "cpp" then
      let s := stripAnchoredPrefix "//".data s
      let s := stripAnchoredPrefix "/*".data s
      let s := stripAnchoredSuffix "*/".data s
      stripStarLines s
    else if languageId == "python" then
      let s := stripAnchoredPrefix "#".data s
      let s := stripTripleQuotePrefix s
      stripTripleQuoteSuffix s
    else if languageId == "html" then
      let s := stripAnchoredPrefix "<!--".data s
      stripAnchoredSuffix "-->".data s
    else s
  String.mk (jsTrim sanitized)

/-- `commentNodeTypes` from `part_001` lines 36-45 (`[]` for unknown ids). -/
def commentNodeTypes (languageId : String) : List String :=
  if languageId == "javascript" || languageId == "javascriptreact" ||
      languageId == "typescript" || languageId == "typescriptreact" then
    ["comment", "line_comment", "block_comment"]
  else if languageId == "python" then ["comment", "string"]
  else if languageId == "c" || languageId == "cpp" || languageId == "html" then
    ["comment"]
  else []

/-- ASCII lower-casing, `String.prototype.toLowerCase` on the node-kind
names occurring here. -/
def toLowerString (s : String) : String :=
  String.mk (s.data.map Char.toLower)

/-- JavaScript `hay.includes(needle)`. -/
def jsIncludes (hay needle : List Char) : Bool :=
  (jsIndexOf hay needle 0).isSome

/-- `isCommentNode` from `part_001` lines 155-169. -/
def isCommentNode (nodeType : String) (languageId : String) : Bool :=
  (commentNodeTypes languageId).contains nodeType ||
  jsIncludes (toLowerString nodeType).data "comment".data

/-- A tree-sitter syntax node as read by the extractor (the parser is
external): node kind, covered text and absolute index range. -/
structure AstNode where
  type : String
  text : String
  startIndex : Nat
  endIndex : Nat
deriving DecidableEq, Repr

/-- `isPythonDocstring` from `part_001` lines 175-183. -/
def isPythonDocstring (node : AstNode) : Bool :=
  (node.type == "string" || node.type == "string_content") &&
  (tripleDoubleQuote = node.text.data.take 3 || tripleSingleQuote = node.text.data.take 3)

/-- Candidate-retention stage of `extractCommentsWithTreeSitter` (`part_001`
lines 235-289), over the depth-first list of visited nodes: a qualifying
node is sanitized and pushed exactly when
`calculateJapaneseRatio(sanitized) >= minJapaneseRatio` (default 0.1). -/
def extractCommentsWithTreeSitter (languageId : String) (nodes : List AstNode)
    (minJapaneseRatio : ℚ := 1 / 10) : List CommentRange :=
  nodes.filterMap fun node =>
    let isComment := isCommentNode node.type languageId
    let isDocstring := languageId == "python" && isPythonDocstring node
    if isComment || isDocstring then
      let original := node.text
      let sanitized := sanitizeComment original languageId
      if calculateJapaneseRatio sanitized ≥ minJapaneseRatio then
        some
          { start := node.startIndex
            «end» := node.endIndex
            text := sanitized
            original := original }
      else none
    else none

/-- Cache entry status of `WikipediaCacheEntry` (`shared/types.ts`). -/
inductive CacheStatus where
  | success
  | not_found
  | error
deriving DecidableEq, Repr

/-- `WikipediaCacheEntry` from `shared/types.ts`. -/
structure WikipediaCacheEntry where
  summary : Option String
  status : CacheStatus
  timestamp : Nat
deriving DecidableEq, Repr

/-- The in-memory Wikipedia cache `Map`. -/
def WikipediaCache : Type := String → Option WikipediaCacheEntry

/-- `cache.set(term, entry)`. -/
def cacheSet (cache : WikipediaCache) (term : String) (entry : WikipediaCacheEntry) :
    WikipediaCache :=
  fun t => if t = term then some entry else cache t

/-- `CACHE_EXPIRY_MS = 60 * 60 * 1000` (one hour). -/
def CACHE_EXPIRY_MS : Nat := 60 * 60 * 1000

/-- Outcome of the one `fetch` performed by a lookup: either an HTTP response
(status plus the optional `extract` field of the JSON body) or a
transport-level failure that never reaches a response. -/
inductive NetResponse where
  | http (status : Nat) (extract : Option String)
  | transportError
deriving DecidableEq, Repr

/-- The `try` block of `fetchWikipediaSummary` (`extension.ts`): 404 is
cached as `not_found`, any other non-2xx as `error`, a 2xx caches `success`
with `data.extract || null` (so an empty extract becomes `null`), and a
transport failure is swallowed by the `catch` without touching the cache. -/
def fetchWikipediaNetwork (cache : WikipediaCache) (term : String) (now : Nat)
    (response : NetResponse) : Option String × WikipediaCache × Bool :=
  match response with
  | NetResponse.transportError => (none, cache, true)
  | NetResponse.http status extract =>
    if status = 404 then
      (none, cacheSet cache term
        { summary := none, status := CacheStatus.not_found, timestamp := now }, true)
    else if !(200 ≤ status && status ≤ 299) then
      (none, cacheSet cache term
        { summary := none, status := CacheStatus.error, timestamp := now }, true)
    else
      let summary : Option String :=
        match extract with
        | some s => if s == "" then none else some s
        | none => none
      (summary, cacheSet cache term
        { summary := summary, status := CacheStatus.success, timestamp := now }, true)

/-- `fetchWikipediaSummary` from `extension.ts` lines 195-251, as a state
transformer over the cache: result is `(summary, new cache, whether a
network request was made)`.  A cached entry younger than the expiry window is
returned without touching the network. -/
def fetchWikipediaSummary (cache : WikipediaCache) (term : String) (now : Nat)
    (response : NetResponse) : Option String × WikipediaCache × Bool :=
  match cache term with
  | some cached =>
    if now - cached.timestamp < CACHE_EXPIRY_MS then (cached.summary, cache, false)
    else fetchWikipediaNetwork cache term now response
  | none => fetchWikipediaNetwork cache term now response

/-! Specification-side definitions: reformulations used to state the claims,
written from the spec's wording rather than from the source. -/

/-- Token `a` ends at or before token `b` starts — the separation guarantee
the adapter provides for non-empty surface forms. -/
def tokenEndsBefore (a b : Token) : Prop :=
  a.offset + a.surface.length ≤ b.offset

instance : DecidableRel tokenEndsBefore := fun a b =>
  inferInstanceAs (Decidable (a.offset + a.surface.length ≤ b.offset))

instance : IsTrans Token tokenEndsBefore :=
  ⟨fun a b c hab hbc => by unfold tokenEndsBefore at *; omega⟩

/-- Immediately successive pairs of the particle-only subsequence of a token
list sharing surface form and `(POS, POS-detail-1)` key — the duplicate
particle trigger as the spec words it. -/
def duplicateParticlePairs (tokens : List Token) : List (Token × Token) :=
  let particles := tokens.filter isParticle
  (particles.zip particles.tail).filter fun p =>
    p.2.surface == p.1.surface && getParticleKey p.2 == getParticleKey p.1

/-- The diagnostic the duplicate-particle rule emits for a flagged pair. -/
def duplicateParticleDiag (text : String) (p : Token × Token) : DiagnosticInfo :=
  { start := offsetToPosition text p.1.offset
    «end» := offsetToPosition text (p.2.offset + p.2.surface.length)
    message := "同じ助詞「" ++ p.2.surface ++ "」が連続しています"
    severity := 2
    code := "duplicate-particle"
    source := "wakame" }

/-- The diagnostic the ra-dropping rule emits for a single special-case token. -/
def raSpecialDiag (text : String) (token : Token) : DiagnosticInfo :=
  { start := offsetToPosition text token.offset
    «end» := offsetToPosition text (token.offset + token.surface.length)
    message := "ら抜き言葉を使用しています"
    severity := 2
    code := "ra-dropping"
    source := "wakame" }

/-- Adjacent bigrams flagged by the ra-dropping rule: a target verb
immediately followed by the 接尾「れる」 token. -/
def raBigramPairs (tokens : List Token) : List (Token × Token) :=
  (tokens.zip tokens.tail).filter fun p => isTargetVerb p.1 && isRaWord p.2

/-- The diagnostic the ra-dropping rule emits for a flagged bigram. -/
def raBigramDiag (text : String) (p : Token × Token) : DiagnosticInfo :=
  { start := offsetToPosition text p.1.offset
    «end» := offsetToPosition text (p.2.offset + p.2.surface.length)
    message := "ら抜き言葉を使用しています"
    severity := 2
    code := "ra-dropping"
    source := "wakame" }

/-- The diagnostic the comma-limit rule emits for a violating sentence. -/
def commaLimitDiag (text : String) (config : WakameConfig) (sentence : Sentence) :
    DiagnosticInfo :=
  { start := offsetToPosition text sentence.start
    «end» := offsetToPosition text sentence.«end»
    message := "一文に使用できる読点「、」は最大" ++
      toString config.rules.commaLimitMax ++ "個までです (現在" ++
      toString (countCommas sentence.text) ++ "個)"
    severity := 2
    code := "comma-limit"
    source := "wakame" }

/-! Concrete fixtures for the scenario parts of the claims. -/

/-- All-rules-enabled configuration with the default thresholds
(`commaLimitMax = 3`, `adversativeGaMax = 1`). -/
def scenarioConfig : WakameConfig :=
  { rules :=
    { commaLimit := true
      commaLimitMax := 3
      adversativeGa := true
      adversativeGaMax := 1
      duplicateParticle := true
      adjacentParticles := true
      conjunctionRepeat := true
      raDropping := true } }

/-- The comma-limit scenario sentence of the spec (4 Japanese commas). -/
def commaScenarioText : String := "これは、とても、すごく、非常に、良い。"

/-- The comma-limit scenario as a whole-document sentence (the rule reads no
tokens). -/
def commaScenarioSentence : Sentence :=
  { text := commaScenarioText, start := 0, «end» := 19, tokens := [] }

/-- A particle token 「を」 (case particle) at a given offset. -/
def particleWo (offset : Nat) : Token :=
  { surface := "を", pos := "助詞", posDetail1 := "格助詞", baseForm := "を"
    offset := offset, length := 3 }

/-- Sentence with two consecutive 「を」 particles. -/
def dupSentence2 : Sentence :=
  { text := "をを", start := 0, «end» := 2, tokens := [particleWo 0, particleWo 1] }

/-- Sentence with three consecutive 「を」 particles. -/
def dupSentence3 : Sentence :=
  { text := "ををを", start := 0, «end» := 3
    tokens := [particleWo 0, particleWo 1, particleWo 2] }

/-- Stem-form one-step verb 「見」 (未然形, self-standing). -/
def verbMi : Token :=
  { surface := "見", pos := "動詞", posDetail1 := "自立", conjugationType := "一段"
    conjugationForm := "未然形", baseForm := "見る", offset := 0, length := 3 }

/-- The contracted-potential suffix token 「れる」 following 「見」. -/
def suffixReru : Token :=
  { surface := "れる", pos := "動詞", posDetail1 := "接尾", baseForm := "れる"
    offset := 1, length := 6 }

/-- The ra-dropping bigram scenario sentence 「見れる」 (見 + れる). -/
def raSentenceBigram : Sentence :=
  { text := "見れる", start := 0, «end» := 3, tokens := [verbMi, suffixReru] }

/-- Single verb token with dictionary form 「来れる」. -/
def verbKoreru : Token :=
  { surface := "来れる", pos := "動詞", posDetail1 := "自立", baseForm := "来れる"
    offset := 0, length := 9 }

/-- The ra-dropping special-case scenario sentence. -/
def raSentenceSpecial : Sentence :=
  { text := "来れる", start := 0, «end» := 3, tokens := [verbKoreru] }

/-- A non-verb token whose dictionary form is nevertheless 「来れる」 —
exercises the POS requirement of `isSpecialRaCase`. -/
def nounKoreru : Token :=
  { surface := "来れる", pos := "名詞", baseForm := "来れる", offset := 0, length := 9 }

/-- Sentence containing only `nounKoreru`. -/
def raSentenceNoun : Sentence :=
  { text := "来れる", start := 0, «end» := 3, tokens := [nounKoreru] }

/-- A token starting at offset 3 — the sentence segmenter nevertheless starts
its first sentence at 0. -/
def c1Token : Token := { surface := "あ", offset := 3, length := 3 }

/-- Backend record with surface `a`. -/
def mecabA : MecabToken := { word := "a" }

/-- Backend record with surface `b`. -/
def mecabB : MecabToken := { word := "b" }

/-- Backend record with an empty surface form. -/
def mecabEmpty : MecabToken := { word := "" }

/-- AST comment node whose sanitized text has Japanese ratio exactly 1/10. -/
def borderNode : AstNode :=
  { type := "comment", text := "//あ123456789", startIndex := 0, endIndex := 12 }

/-- The same candidate as a regex match. -/
def borderMatch : RegexMatch := { index := 0, matched := "//あ123456789" }

/-! Helper lemmas shared by the claim theorems. -/

/-- A `filterMap` whose function is an if-then-else of `some ∘ f` and `none`
is the `map` of the `filter`. -/
theorem filterMap_ite_eq_map_filter {α β : Type} (p : α → Prop) [DecidablePred p]
    (f : α → β) (l : List α) :
    (l.filterMap fun a => if p a then some (f a) else none) =
      (l.filter fun a => decide (p a)).map f := by
  induction l with
  | nil => rfl
  | cons a l ih =>
    by_cases hpa : p a <;> simp [List.filterMap_cons, List.filter_cons, hpa, ih]

/-- C10: for every string, `calculateJapaneseRatio` returns a rational value
between 0 and 1 inclusive, and returns exactly 0 on the empty string. -/
theorem calculateJapaneseRatio_mem_unit_interval (s : String) :
    0 ≤ calculateJapaneseRatio s ∧ calculateJapaneseRatio s ≤ 1 ∧
      calculateJapaneseRatio "" = 0 := by
  refine ⟨?_, ?_, rfl⟩
  · unfold calculateJapaneseRatio
    split
    · exact le_refl 0
    · positivity
  · unfold calculateJapaneseRatio
    split
    · exact zero_le_one
    · rename_i h
      rw [div_le_one (by exact_mod_cast Nat.pos_of_ne_zero h)]
      exact_mod_cast List.countP_le_length _

/-- C9: calling `tokenize` before initialization has completed (`ready =
false`) fails fast with the initialization-failure error and performs no
analysis; after successful initialization it returns the adapted tokens and
never raises that error. -/
theorem tokenize_fails_fast_before_ready (mecabTokens : List MecabToken)
    (text : String) :
    tokenize false mecabTokens text =
      Except.error "Tokenizer not initialized. Call initializeTokenizer() first." ∧
    tokenize true mecabTokens text = Except.ok (tokenizeGo text 0 mecabTokens) :=
  ⟨rfl, rfl⟩

/-- C7: `checkGrammar` returns exactly the concatenation of the six rules'
outputs in the fixed row order comma-limit, adversative-ga,
duplicate-particle, adjacent-particles, conjunction-repeat, ra-dropping, and
a rule whose enable flag is false contributes no diagnostics. -/
theorem checkGrammar_is_ordered_concat (text : String) (sentences : List Sentence)
    (config : WakameConfig) :
    checkGrammar text sentences config =
      checkCommaLimit text sentences config ++
      checkAdversativeGa text sentences config ++
      checkDuplicateParticle text sentences config ++
      checkAdjacentParticles text sentences config ++
      checkConjunctionRepeat text sentences config ++
      checkRaDropping text sentences config ∧
    checkCommaLimit text sentences
      { config with rules := { config.rules with commaLimit := false } } = [] ∧
    checkAdversativeGa text sentences
      { config with rules := { config.rules with adversativeGa := false } } = [] ∧
    checkDuplicateParticle text sentences
      { config with rules := { config.rules with duplicateParticle := false } } = [] ∧
    checkAdjacentParticles text sentences
      { config with rules := { config.rules with adjacentParticles := false } } = [] ∧
    checkConjunctionRepeat text sentences
      { config with rules := { config.rules with conjunctionRepeat := false } } = [] ∧
    checkRaDropping text sentences
      { config with rules := { config.rules with raDropping := false } } = [] := by
  refine ⟨rfl, ?_, ?_, ?_, ?_, ?_, ?_⟩ <;>
    simp [checkCommaLimit, checkAdversativeGa, checkDuplicateParticle,
      checkAdjacentParticles, checkConjunctionRepeat, checkRaDropping]

/-- C5: with the rule enabled, the comma-limit rule emits exactly one
diagnostic (spanning the whole sentence) for each sentence whose 「、」 count
exceeds `commaLimitMax`, and none for sentences at or below the limit; the
spec's 4-comma scenario sentence with limit 3 yields exactly one diagnostic
covering the entire sentence. -/
theorem checkCommaLimit_flags_exceeding_sentences (text : String)
    (sentences : List Sentence) (config : WakameConfig)
    (h : config.rules.commaLimit = true) :
    checkCommaLimit text sentences config =
      (sentences.filter fun s =>
        decide (countCommas s.text > config.rules.commaLimitMax)).map
        (commaLimitDiag text config) ∧
    checkCommaLimit commaScenarioText [commaScenarioSentence] scenarioConfig =
      [{ start := { line := 0, character := 0 }
         «end» := { line := 0, character := 19 }
         message := "一文に使用できる読点「、」は最大3個までです (現在4個)"
         severity := 2
         code := "comma-limit"
         source := "wakame" }] ∧
    countCommas commaScenarioSentence.text = 4 ∧
    commaScenarioSentence.start = 0 ∧
    commaScenarioSentence.«end» = commaScenarioText.length := by
  refine ⟨?_, by decide, by decide, rfl, by decide⟩
  have hunfold : checkCommaLimit text sentences config =
      sentences.filterMap fun sentence =>
        if countCommas sentence.text > config.rules.commaLimitMax then
          some (commaLimitDiag text config sentence) else none := by
    simp [checkCommaLimit, h, commaLimitDiag]
  rw [hunfold, filterMap_ite_eq_map_filter]

/-- Witness for C5 at the spec's scenario input. -/
theorem checkCommaLimit_flags_exceeding_sentences_witness :
    checkCommaLimit commaScenarioText [commaScenarioSentence] scenarioConfig =
      (([commaScenarioSentence]).filter fun s =>
        decide (countCommas s.text > scenarioConfig.rules.commaLimitMax)).map
        (commaLimitDiag commaScenarioText scenarioConfig) :=
  (checkCommaLimit_flags_exceeding_sentences commaScenarioText
    [commaScenarioSentence] scenarioConfig rfl).1

/-- C8: on a cache miss, a 404 response is cached with status `not_found`
and any other non-2xx response with status `error` (both returning `null`);
a lookup hitting an entry younger than the 1-hour expiry returns the cached
summary without a network request; a transport-level failure returns `null`
and leaves the cache untouched, so a later lookup for that term retries. -/
theorem fetchWikipediaSummary_cache_contract (cache : WikipediaCache)
    (term : String) (now now2 : Nat) (hmiss : cache term = none) :
    fetchWikipediaSummary cache term now (NetResponse.http 404 none) =
      (none, cacheSet cache term
        { summary := none, status := CacheStatus.not_found, timestamp := now },
        true) ∧
    (∀ (status : Nat) (extract : Option String), status ≠ 404 →
      (200 ≤ status && status ≤ 299) = false →
      fetchWikipediaSummary cache term now (NetResponse.http status extract) =
        (none, cacheSet cache term
          { summary := none, status := CacheStatus.error, timestamp := now },
          true)) ∧
    (∀ (entry : WikipediaCacheEntry) (response : NetResponse),
      now2 - entry.timestamp < CACHE_EXPIRY_MS →
      fetchWikipediaSummary (cacheSet cache term entry) term now2 response =
        (entry.summary, cacheSet cache term entry, false)) ∧
    fetchWikipediaSummary cache term now NetResponse.transportError =
      (none, cache, true) := by
  refine ⟨?_, ?_, ?_, ?_⟩
  · simp [fetchWikipediaSummary, hmiss, fetchWikipediaNetwork]
  · intro status extract h404 hok
    simp [fetchWikipediaSummary, hmiss, fetchWikipediaNetwork, h404, hok]
  · intro entry response hfresh
    simp [fetchWikipediaSummary, cacheSet, hfresh]
  · simp [fetchWikipediaSummary, hmiss, fetchWikipediaNetwork]

/-- Witness for C8 at the spec's scenario: term 「猫」, 404 then a fresh
cache hit answered without network, and an uncached transport failure. -/
theorem fetchWikipediaSummary_cache_contract_witness :
    fetchWikipediaSummary (fun _ => none) "猫" 0 (NetResponse.http 404 none) =
      (none, cacheSet (fun _ => none) "猫"
        { summary := none, status := CacheStatus.not_found, timestamp := 0 },
        true) ∧
    fetchWikipediaSummary
        (cacheSet (fun _ => none) "猫"
          { summary := none, status := CacheStatus.not_found, timestamp := 0 })
        "猫" 1000 NetResponse.transportError =
      (none, cacheSet (fun _ => none) "猫"
        { summary := none, status := CacheStatus.not_found, timestamp := 0 },
        false) ∧
    fetchWikipediaSummary (fun _ => none) "猫" 0 NetResponse.transportError =
      (none, (fun _ => none), true) := by
  have h := fetchWikipediaSummary_cache_contract (fun _ => none) "猫" 0 1000 rfl
  exact ⟨h.1,
    h.2.2.1 { summary := none, status := CacheStatus.not_found, timestamp := 0 }
      NetResponse.transportError (by norm_num [CACHE_EXPIRY_MS]),
    h.2.2.2⟩

/-- The duplicate-particle scanner with a recorded last particle `lt` (whose
surface/key are the cached `lastSurface`/`lastKey`) emits exactly the equal
adjacent pairs of `lt` followed by the remaining particles. -/
theorem dupGo_some_eq (text : String) (toks : List Token) :
    ∀ (lt : Token) (streak : Nat), 0 < streak →
    dupGo text toks lt.surface (getParticleKey lt) (some lt) streak =
      ((((lt :: toks.filter isParticle).zip (toks.filter isParticle)).filter fun p =>
        p.2.surface == p.1.surface && getParticleKey p.2 == getParticleKey p.1).map
        (duplicateParticleDiag text)) := by
  induction toks with
  | nil => intro lt streak _; simp [dupGo]
  | cons t rest ih =>
    intro lt streak hs
    cases hp : isParticle t with
    | false =>
      simp only [dupGo, hp, Bool.not_false, if_true]
      rw [ih lt streak hs, List.filter_cons_of_neg (by simp [hp])]
    | true =>
      cases heq : (t.surface == lt.surface && (getParticleKey t == getParticleKey lt)) with
      | true =>
        have hgt : 1 < streak + 1 := by omega
        simp only [dupGo, hp, Bool.not_true, if_false, heq, if_pos hgt]
        rw [ih t (streak + 1) (by omega), List.filter_cons_of_pos (by simp [hp])]
        simp [List.zip_cons_cons, List.filter_cons_of_pos, heq, duplicateParticleDiag]
      | false =>
        simp only [dupGo, hp, Bool.not_true, if_false, heq]
        rw [ih t 1 (by omega), List.filter_cons_of_pos (by simp [hp])]
        simp [List.zip_cons_cons, List.filter_cons_of_neg, heq]

/-- Before any particle has been seen, the duplicate-particle scanner emits
exactly the equal adjacent pairs of the particle-only subsequence. -/
theorem dupGo_none_eq (text : String) (toks : List Token) (ls lk : String)
    (streak : Nat) :
    dupGo text toks ls lk none streak =
      (duplicateParticlePairs toks).map (duplicateParticleDiag text) := by
  induction toks generalizing ls lk streak with
  | nil => simp [dupGo, duplicateParticlePairs]
  | cons t rest ih =>
    cases hp : isParticle t with
    | false =>
      simp only [dupGo, hp, Bool.not_false, if_true]
      rw [ih ls lk streak]
      unfold duplicateParticlePairs
      rw [List.filter_cons_of_neg (by simp [hp])]
    | true =>
      simp only [dupGo, hp, Bool.not_true, if_false]
      rw [dupGo_some_eq text rest t 1 (by omega)]
      unfold duplicateParticlePairs
      rw [List.filter_cons_of_pos (by simp [hp])]
      simp

/-- C4: with the rule enabled, the duplicate-particle rule emits one
diagnostic for exactly every immediately successive pair of the particle-only
subsequence sharing surface form and `(POS, POS-detail-1)` key — one per
token extending a streak beyond length 1 — so two consecutive 「を」 yield
exactly one diagnostic and three consecutive 「を」 yield exactly two. -/
theorem checkDuplicateParticle_streak_pairs (text : String)
    (sentences : List Sentence) (config : WakameConfig)
    (h : config.rules.duplicateParticle = true) :
    checkDuplicateParticle text sentences config =
      (sentences.map fun s =>
        (duplicateParticlePairs s.tokens).map (duplicateParticleDiag text)).flatten ∧
    (checkDuplicateParticle "をを" [dupSentence2] scenarioConfig).length = 1 ∧
    (checkDuplicateParticle "ををを" [dupSentence3] scenarioConfig).length = 2 ∧
    (∀ d ∈ checkDuplicateParticle "をを" [dupSentence2] scenarioConfig,
      d.code = "duplicate-particle") := by
  refine ⟨?_, by decide, by decide, by decide⟩
  simp only [checkDuplicateParticle, h, Bool.not_true, if_false]
  have hfun : (fun s : Sentence => dupGo text s.tokens "" "" none 1) =
      (fun s : Sentence =>
        (duplicateParticlePairs s.tokens).map (duplicateParticleDiag text)) :=
    funext fun s => dupGo_none_eq text s.tokens "" "" 1
  rw [hfun]
  simp

/-- Witness for C4 at the three-particle scenario. -/
theorem checkDuplicateParticle_streak_pairs_witness :
    (checkDuplicateParticle "ををを" [dupSentence3] scenarioConfig).length = 2 :=
  (checkDuplicateParticle_streak_pairs "ををを" [dupSentence3] scenarioConfig
    rfl).2.2.1

/-- The ra-dropping bigram scanner with previous token `pt` emits exactly
the flagged adjacent bigrams of `pt` followed by the remaining tokens. -/
theorem raGo_some_eq (text : String) (toks : List Token) :
    ∀ pt : Token, raGo text (some pt) toks =
      (raBigramPairs (pt :: toks)).map (raBigramDiag text) := by
  induction toks with
  | nil => intro pt; simp [raGo, raBigramPairs]
  | cons t rest ih =>
    intro pt
    cases hc : (isTargetVerb pt && isRaWord t) with
    | true =>
      simp only [raGo, hc, if_true]
      rw [ih t]
      unfold raBigramPairs
      simp [List.zip_cons_cons, List.filter_cons_of_pos, hc, raBigramDiag]
    | false =>
      simp only [raGo, hc, if_false]
      rw [ih t]
      unfold raBigramPairs
      simp [List.zip_cons_cons, List.filter_cons_of_neg, hc]

/-- Started with no previous token, the bigram scanner emits exactly the
flagged adjacent bigrams of the token list. -/
theorem raGo_none_eq (text : String) (toks : List Token) :
    raGo text none toks = (raBigramPairs toks).map (raBigramDiag text) := by
  cases toks with
  | nil => simp [raGo, raBigramPairs]
  | cons t rest =>
    simp only [raGo]
    rw [raGo_some_eq text rest t]

/-- The special-case `filterMap` of `checkRaDropping` is the `map` of the
`isSpecialRaCase` filter. -/
theorem raSpecial_filterMap_eq (text : String) (toks : List Token) :
    (toks.filterMap fun token =>
      if isSpecialRaCase token then
        some
          { start := offsetToPosition text token.offset
            «end» := offsetToPosition text (token.offset + token.surface.length)
            message := "ら抜き言葉を使用しています"
            severity := 2
            code := "ra-dropping"
            source := "wakame" }
      else none) = (toks.filter isSpecialRaCase).map (raSpecialDiag text) := by
  induction toks with
  | nil => rfl
  | cons t rest ih =>
    cases ht : isSpecialRaCase t <;>
      simp [List.filterMap_cons, List.filter_cons, ht, ih, raSpecialDiag]

/-- C6 (amended): with the rule enabled, the ra-dropping rule flags exactly
(a) every verb token (primary POS 動詞) whose dictionary form is 来れる or
見れる, spanning that token alone, and (b) every bigram of a self-standing
one-step-conjugation verb in 未然形 immediately followed by the verb-suffix
(接尾) token with dictionary form れる, spanning both tokens; the stem verb
見 followed by れる yields one diagnostic spanning both tokens, and the
single verb 来れる one diagnostic on that token alone. -/
theorem checkRaDropping_flags (text : String) (sentences : List Sentence)
    (config : WakameConfig) (h : config.rules.raDropping = true) :
    checkRaDropping text sentences config =
      (sentences.map fun s =>
        (s.tokens.filter isSpecialRaCase).map (raSpecialDiag text) ++
        (raBigramPairs s.tokens).map (raBigramDiag text)).flatten ∧
    checkRaDropping "見れる" [raSentenceBigram] scenarioConfig =
      [raBigramDiag "見れる" (verbMi, suffixReru)] ∧
    checkRaDropping "来れる" [raSentenceSpecial] scenarioConfig =
      [raSpecialDiag "来れる" verbKoreru] := by
  refine ⟨?_, by decide, by decide⟩
  simp only [checkRaDropping, h, Bool.not_true, if_false]
  have hfun : (fun s : Sentence =>
      (s.tokens.filterMap fun token =>
        if isSpecialRaCase token then
          some
            { start := offsetToPosition text token.offset
              «end» := offsetToPosition text (token.offset + token.surface.length)
              message := "ら抜き言葉を使用しています"
              severity := 2
              code := "ra-dropping"
              source := "wakame" }
        else none)
      ++ raGo text none s.tokens) =
      (fun s : Sentence =>
        (s.tokens.filter isSpecialRaCase).map (raSpecialDiag text) ++
        (raBigramPairs s.tokens).map (raBigramDiag text)) := by
    funext s
    rw [raGo_none_eq, raSpecial_filterMap_eq]
  rw [hfun]
  simp

/-- C6 counterexample: a token whose dictionary form is 来れる but whose
primary POS is not 動詞 is not flagged, refuting the claim's case (a) as
stated ("any single token whose dictionary form is one of the fixed pair"). -/
theorem checkRaDropping_ignores_nonverb_koreru :
    nounKoreru.baseForm = "来れる" ∧
    checkRaDropping "来れる" [raSentenceNoun] scenarioConfig = [] := by
  decide

/-- Witness for C6 at the bigram scenario. -/
theorem checkRaDropping_flags_witness :
    checkRaDropping "見れる" [raSentenceBigram] scenarioConfig =
      [raBigramDiag "見れる" (verbMi, suffixReru)] :=
  (checkRaDropping_flags "見れる" [raSentenceBigram] scenarioConfig rfl).2.1

/-- The token lists of the produced sentences concatenate to the state's
accumulated tokens followed by the remaining input tokens. -/
theorem splitSentencesGo_tokens_flatten (text : String) (toks : List Token) :
    ∀ (cs : Nat) (acc : List Token),
    ((splitSentencesGo text toks cs acc).map Sentence.tokens).flatten = acc ++ toks := by
  induction toks with
  | nil =>
    intro cs acc
    cases hacc : acc.getLast? with
    | none =>
      have : acc = [] := List.getLast?_eq_none_iff.mp hacc
      simp [splitSentencesGo, hacc, this]
    | some lt => simp [splitSentencesGo, hacc]
  | cons t rest ih =>
    intro cs acc
    cases he : isSentenceEnd t with
    | true => simp [splitSentencesGo, he, ih]
    | false => simp [splitSentencesGo, he, ih]

/-- Every produced sentence is non-empty and ends exactly at its last
token's `offset + len(surface)`. -/
theorem splitSentencesGo_end_inv (text : String) (toks : List Token) :
    ∀ (cs : Nat) (acc : List Token),
    ∀ s ∈ splitSentencesGo text toks cs acc,
      ∃ lt, s.tokens.getLast? = some lt ∧
        s.«end» = lt.offset + lt.surface.length := by
  induction toks with
  | nil =>
    intro cs acc s hs
    cases hacc : acc.getLast? with
    | none => simp [splitSentencesGo, hacc] at hs
    | some lt =>
      simp [splitSentencesGo, hacc] at hs
      subst hs
      exact ⟨lt, hacc, rfl⟩
  | cons t rest ih =>
    intro cs acc s hs
    cases he : isSentenceEnd t with
    | true =>
      simp only [splitSentencesGo, he, if_true, List.mem_cons] at hs
      rcases hs with hs | hs
      · subst hs
        exact ⟨t, by simp, rfl⟩
      · exact ih _ _ s hs
    | false =>
      simp only [splitSentencesGo, he, if_false] at hs
      exact ih _ _ s hs

/-- The first produced sentence starts at the running `currentStart`. -/
theorem splitSentencesGo_head_start (text : String) (toks : List Token) :
    ∀ (cs : Nat) (acc : List Token),
    ∀ s ∈ (splitSentencesGo text toks cs acc).head?, s.start = cs := by
  induction toks with
  | nil =>
    intro cs acc s hs
    cases hacc : acc.getLast? with
    | none => simp [splitSentencesGo, hacc] at hs
    | some lt =>
      simp [splitSentencesGo, hacc] at hs
      subst hs
      rfl
  | cons t rest ih =>
    intro cs acc s hs
    cases he : isSentenceEnd t with
    | true =>
      simp only [splitSentencesGo, he, if_true, List.head?_cons,
        Option.mem_def, Option.some.injEq] at hs
      subst hs
      rfl
    | false =>
      simp only [splitSentencesGo, he, if_false] at hs
      exact ih _ _ s hs

/-- Consecutive produced sentences are contiguous: each starts exactly where
the previous one ends. -/
theorem splitSentencesGo_chain (text : String) (toks : List Token) :
    ∀ (cs : Nat) (acc : List Token),
    List.Chain' (fun a b => b.start = a.«end») (splitSentencesGo text toks cs acc) := by
  induction toks with
  | nil =>
    intro cs acc
    cases hacc : acc.getLast? with
    | none => simp [splitSentencesGo, hacc]
    | some lt => simp [splitSentencesGo, hacc]
  | cons t rest ih =>
    intro cs acc
    cases he : isSentenceEnd t with
    | true =>
      simp only [splitSentencesGo, he, if_true]
      refine List.chain'_cons'.mpr ⟨?_, ih _ _⟩
      intro y hy
      exact splitSentencesGo_head_start text rest _ [] y hy
    | false =>
      simp only [splitSentencesGo, he, if_false]
      exact ih _ _

/-- Under pairwise token separation, every produced sentence has a
well-formed range `start ≤ end`, given that the running start is below every
remaining token and below the end of the accumulated buffer. -/
theorem splitSentencesGo_wellformed (text : String) (toks : List Token) :
    ∀ (cs : Nat) (acc : List Token),
    toks.Pairwise tokenEndsBefore →
    (∀ t ∈ toks, cs ≤ t.offset) →
    (∀ lt ∈ acc.getLast?, cs ≤ lt.offset + lt.surface.length) →
    ∀ s ∈ splitSentencesGo text toks cs acc, s.start ≤ s.«end» := by
  induction toks with
  | nil =>
    intro cs acc _ _ hacc s hs
    cases hl : acc.getLast? with
    | none => simp [splitSentencesGo, hl] at hs
    | some lt =>
      simp [splitSentencesGo, hl] at hs
      subst hs
      exact hacc lt (by simp [hl])
  | cons t rest ih =>
    intro cs acc hP hcs hacc s hs
    have hPt : ∀ u ∈ rest, tokenEndsBefore t u := (List.pairwise_cons.mp hP).1
    have hPrest : rest.Pairwise tokenEndsBefore := (List.pairwise_cons.mp hP).2
    cases he : isSentenceEnd t with
    | true =>
      simp only [splitSentencesGo, he, if_true, List.mem_cons] at hs
      rcases hs with hs | hs
      · subst hs
        have := hcs t (by simp)
        simp only
        omega
      · refine ih _ _ hPrest ?_ ?_ s hs
        · intro u hu
          exact hPt u hu
        · intro lt hlt
          simp at hlt
    | false =>
      simp only [splitSentencesGo, he, if_false] at hs
      refine ih _ _ hPrest ?_ ?_ s hs
      · intro u hu
        exact hcs u (by simp [hu])
      · intro lt hlt
        rw [List.getLast?_concat] at hlt
        simp only [Option.mem_def, Option.some.injEq] at hlt
        subst hlt
        have := hcs t (by simp)
        omega

/-- C1 (amended): for every text and token sequence, each produced sentence
is non-empty with `end = tokens[last].offset + len(tokens[last].surface)`;
the first sentence starts at 0 and each subsequent sentence starts exactly
at the previous sentence's end; the sentences' token lists concatenate to
exactly the input tokens (the possibly non-terminated trailing sentence
included); and — when token ranges are separated as the adapter guarantees —
every range is well-formed, so the sentences tile `[0, last token end)`
without gaps or overlaps.  (`start = tokens[0].offset` does not hold in
general: the segmenter uses the running `currentStart`.) -/
theorem splitSentences_coverage_invariants (text : String) (tokens : List Token)
    (hchain : List.Chain' tokenEndsBefore tokens) :
    (∀ s ∈ splitSentences text tokens, ∃ lt, s.tokens.getLast? = some lt ∧
        s.«end» = lt.offset + lt.surface.length) ∧
    (∀ s ∈ (splitSentences text tokens).head?, s.start = 0) ∧
    List.Chain' (fun a b => b.start = a.«end») (splitSentences text tokens) ∧
    ((splitSentences text tokens).map Sentence.tokens).flatten = tokens ∧
    (∀ s ∈ splitSentences text tokens, s.start ≤ s.«end») := by
  refine ⟨splitSentencesGo_end_inv text tokens 0 [],
    splitSentencesGo_head_start text tokens 0 [],
    splitSentencesGo_chain text tokens 0 [],
    splitSentencesGo_tokens_flatten text tokens 0 [],
    splitSentencesGo_wellformed text tokens 0 []
      (List.chain'_iff_pairwise.mp hchain) (fun _ _ => Nat.zero_le _)
      (fun lt hlt => by simp at hlt)⟩

/-- C1 counterexample: a single token at offset 3 produces a sentence with
`start = 0`, refuting `start == tokens[0].offset`. -/
theorem splitSentences_start_not_first_token_offset :
    ¬ (∀ s ∈ splitSentences "xxxあ" [c1Token],
        ∀ t ∈ s.tokens.head?, s.start = t.offset) := by
  decide

/-- Witness for C1 on a concrete separated token sequence. -/
theorem splitSentences_coverage_invariants_witness :
    ((splitSentences "をを" [particleWo 0, particleWo 1]).map
      Sentence.tokens).flatten = [particleWo 0, particleWo 1] :=
  (splitSentences_coverage_invariants "をを" [particleWo 0, particleWo 1]
    (List.chain'_cons.mpr ⟨by decide, List.chain'_singleton _⟩)).2.2.2.1

/-- A successful bounded search yields an index at or after the start that
carries an occurrence. -/
theorem findFromAux_eq_some (text pat : List Char) :
    ∀ (fuel i j : Nat), findFromAux text pat i fuel = some j →
      i ≤ j ∧ occursAt text pat j = true := by
  intro fuel
  induction fuel with
  | zero => intro i j h; simp [findFromAux] at h
  | succ fuel ih =>
    intro i j h
    rw [findFromAux] at h
    cases hocc : occursAt text pat i with
    | true =>
      rw [hocc] at h
      simp at h
      subst h
      exact ⟨le_refl i, hocc⟩
    | false =>
      rw [hocc] at h
      simp only [Bool.false_eq_true, if_false] at h
      obtain ⟨h1, h2⟩ := ih (i + 1) j h
      exact ⟨by omega, h2⟩

/-- For a non-empty pattern, a found index is never before `fromIndex`. -/
theorem jsIndexOf_some_ge (text pat : List Char) (fromIndex j : Nat)
    (hpat : pat ≠ []) (h : jsIndexOf text pat fromIndex = some j) :
    fromIndex ≤ j := by
  unfold jsIndexOf at h
  obtain ⟨hge, hocc⟩ := findFromAux_eq_some text pat _ _ _ h
  unfold occursAt at hocc
  rw [Bool.and_eq_true, decide_eq_true_eq, decide_eq_true_eq] at hocc
  have hplen : 0 < pat.length := List.length_pos.mpr hpat
  omega

/-- The adapted tokens of a non-empty-surface backend stream have
non-decreasing offsets, all at or after the running cursor. -/
theorem tokenizeGo_offsets (text : String) (raws : List MecabToken) :
    ∀ cursor : Nat, (∀ mt ∈ raws, mt.word ≠ "") →
    List.Chain' (fun a b => a.offset ≤ b.offset) (tokenizeGo text cursor raws) ∧
    (∀ tok ∈ tokenizeGo text cursor raws, cursor ≤ tok.offset) := by
  induction raws with
  | nil => intro cursor _; simp [tokenizeGo]
  | cons mt rest ih =>
    intro cursor hne
    have hw : mt.word ≠ "" := hne mt (by simp)
    have hd : mt.word.data ≠ [] := fun hnil => hw (by
      apply String.ext
      simpa using hnil)
    have hcursor_le :
        cursor ≤ (jsIndexOf text.data mt.word.data cursor).getD cursor := by
      cases hj : jsIndexOf text.data mt.word.data cursor with
      | none => simp
      | some j =>
        simpa using jsIndexOf_some_ge text.data mt.word.data cursor j hd hj
    obtain ⟨ihc, ihge⟩ :=
      ih ((jsIndexOf text.data mt.word.data cursor).getD cursor + mt.word.length)
        (fun u hu => hne u (List.mem_cons_of_mem mt hu))
    constructor
    · rw [tokenizeGo]
      refine List.chain'_cons'.mpr ⟨?_, ihc⟩
      intro y hy
      have hymem := List.mem_of_mem_head? hy
      have := ihge y hymem
      simp only
      omega
    · intro tok htok
      rw [tokenizeGo, List.mem_cons] at htok
      rcases htok with htok | htok
      · subst htok
        simpa using hcursor_le
      · have := ihge tok htok
        omega

/-- C2 (amended): whenever every backend surface form is non-empty — as a
morphological analyzer guarantees — the adapted token sequence has
non-decreasing offsets, each offset being the forward `indexOf` of the
surface at or after the cursor with the cursor itself as fallback, the
cursor then advancing to `offset + len(surface)`.  (With an empty surface
form the clamped `indexOf` can step behind the cursor.) -/
theorem tokenize_offsets_monotone (text : String) (mecabTokens : List MecabToken)
    (hne : ∀ mt ∈ mecabTokens, mt.word ≠ "") :
    List.Chain' (fun a b => a.offset ≤ b.offset) (tokenizeGo text 0 mecabTokens) ∧
    (∀ (currentOffset : Nat) (mt : MecabToken) (rest : List MecabToken),
      (tokenizeGo text currentOffset (mt :: rest)).map Token.offset =
        ((jsIndexOf text.data mt.word.data currentOffset).getD currentOffset) ::
        (tokenizeGo text
          (((jsIndexOf text.data mt.word.data currentOffset).getD currentOffset) +
            mt.word.length) rest).map Token.offset) :=
  ⟨(tokenizeGo_offsets text mecabTokens 0 hne).1,
   fun _ _ _ => rfl⟩

/-- C2 counterexample: on the empty text with backend surfaces `a`, `b` and
the empty string, the derived offsets are `[0, 1, 0]` — the clamped
`indexOf` finds the empty surface at position 0 behind the cursor — so the
offsets are not non-decreasing. -/
theorem tokenize_offsets_counterexample :
    (tokenizeGo "" 0 [mecabA, mecabB, mecabEmpty]).map Token.offset = [0, 1, 0] ∧
    ¬ List.Chain' (fun a b : Token => a.offset ≤ b.offset)
        (tokenizeGo "" 0 [mecabA, mecabB, mecabEmpty]) := by
  have hoff : (tokenizeGo "" 0 [mecabA, mecabB, mecabEmpty]).map Token.offset =
      [0, 1, 0] := by decide
  refine ⟨hoff, fun hch => ?_⟩
  have hmap : List.Chain' (fun a b : Nat => a ≤ b)
      ((tokenizeGo "" 0 [mecabA, mecabB, mecabEmpty]).map Token.offset) := by
    rw [List.chain'_map]
    exact hch
  rw [hoff] at hmap
  have h10 : (1 : Nat) ≤ 0 := (List.chain'_cons.mp (List.chain'_cons.mp hmap).2).1
  omega

/-- Witness for C2 on a concrete backend stream with non-empty surfaces. -/
theorem tokenize_offsets_monotone_witness :
    List.Chain' (fun a b : Token => a.offset ≤ b.offset)
      (tokenizeGo "これは" 0 [{ word := "これ" }, { word := "は" }]) :=
  (tokenize_offsets_monotone "これは" [{ word := "これ" }, { word := "は" }]
    (by decide)).1

/-- Sanitizing the borderline candidate strips the marker only. -/
theorem borderNode_sanitized :
    sanitizeComment borderNode.text "typescript" = "あ123456789" := by decide

/-- Marker stripping of the borderline candidate gives the same text. -/
theorem borderMatch_stripped :
    stripMarkers borderMatch.matched = "あ123456789" := by decide

/-- The borderline candidate has Japanese ratio exactly 1/10. -/
theorem borderRatio : calculateJapaneseRatio "あ123456789" = 1 / 10 := by
  have hc : ("あ123456789".data.countP isJapaneseChar) = 1 := by decide
  have hl : ("あ123456789".length) = 10 := by decide
  unfold calculateJapaneseRatio
  rw [hl, hc]
  norm_num

/-- The AST strategy retains the borderline candidate at the default
threshold. -/
theorem treeSitterBorder_eq :
    extractCommentsWithTreeSitter "typescript" [borderNode] (1 / 10) =
      [{ start := 0, «end» := 12, text := "あ123456789",
         original := "//あ123456789" }] := by
  unfold extractCommentsWithTreeSitter
  simp only [List.filterMap_cons, List.filterMap_nil]
  rw [show (isCommentNode borderNode.type "typescript" ||
      ("typescript" == "python" && isPythonDocstring borderNode)) = true from by decide]
  rw [borderNode_sanitized, borderRatio]
  simp [borderNode, borderNode_sanitized]

/-- The regex strategy discards the borderline candidate. -/
theorem extractCommentsBorder_eq : extractComments [borderMatch] = [] := by
  unfold extractComments
  simp only [List.filterMap_cons, List.filterMap_nil]
  rw [borderMatch_stripped, borderRatio]
  simp

/-- The two sanitizers disagree on a trailing-whitespace line comment: the
AST sanitizer trims, the regex marker stripping does not. -/
theorem sanitize_trim_difference :
    sanitizeComment "//  猫です " "typescript" = "猫です" ∧
    stripMarkers "//  猫です " = "猫です " := by decide

/-- C3 (amended): the AST strategy retains a sanitized candidate exactly
when its Japanese ratio is at least `minJapaneseRatio` — a qualifying
candidate at ratio exactly 1/10 is retained at the default threshold — while
the regex strategy never consults the configured threshold and retains a
stripped candidate only when its ratio strictly exceeds the hardcoded 1/10,
discarding that same borderline candidate; and the two strategies'
post-processing differs (only the AST sanitizer trims). -/
theorem extraction_ratio_filters (languageId : String) (minJapaneseRatio : ℚ)
    (nodes : List AstNode) (matchList : List RegexMatch) :
    (∀ c ∈ extractCommentsWithTreeSitter languageId nodes minJapaneseRatio,
      minJapaneseRatio ≤ calculateJapaneseRatio c.text) ∧
    (∀ c ∈ extractComments matchList, 1 / 10 < calculateJapaneseRatio c.text) ∧
    extractCommentsWithTreeSitter "typescript" [borderNode] (1 / 10) =
      [{ start := 0, «end» := 12, text := "あ123456789",
         original := "//あ123456789" }] ∧
    extractComments [borderMatch] = [] ∧
    calculateJapaneseRatio (sanitizeComment borderNode.text "typescript") =
      1 / 10 ∧
    sanitizeComment "//  猫です " "typescript" ≠ stripMarkers "//  猫です " := by
  refine ⟨?_, ?_, treeSitterBorder_eq, extractCommentsBorder_eq,
    by rw [borderNode_sanitized, borderRatio],
    by rw [sanitize_trim_difference.1, sanitize_trim_difference.2]; decide⟩
  · intro c hc
    unfold extractCommentsWithTreeSitter at hc
    rw [List.mem_filterMap] at hc
    obtain ⟨node, _, heq⟩ := hc
    simp only at heq
    split at heq
    · split at heq
      · rename_i hratio
        cases heq
        exact hratio
      · exact absurd heq (by simp)
    · exact absurd heq (by simp)
  · intro c hc
    unfold extractComments at hc
    rw [List.mem_filterMap] at hc
    obtain ⟨m, _, heq⟩ := hc
    simp only at heq
    split at heq
    · rename_i hratio
      cases heq
      exact hratio
    · exact absurd heq (by simp)

/-- C3 counterexample: the sanitized candidate `あ123456789` has Japanese
ratio exactly 1/10 = 0.1; at the default threshold the AST strategy retains
it while the regex strategy discards it, and the claimed identical
post-processing also fails — only the AST path trims. -/
theorem extraction_threshold_counterexample :
    calculateJapaneseRatio "あ123456789" = 1 / 10 ∧
    extractCommentsWithTreeSitter "typescript" [borderNode] (1 / 10) ≠ [] ∧
    extractComments [borderMatch] = [] ∧
    sanitizeComment "//  猫です " "typescript" = "猫です" ∧
    stripMarkers "//  猫です " = "猫です " :=
  ⟨borderRatio, by rw [treeSitterBorder_eq]; simp, extractCommentsBorder_eq,
   sanitize_trim_difference.1, sanitize_trim_difference.2⟩

/-- Witness for C3 at the borderline candidate. -/
theorem extraction_ratio_filters_witness :
    (∀ c ∈ extractCommentsWithTreeSitter "typescript" [borderNode] (1 / 10),
      (1 : ℚ) / 10 ≤ calculateJapaneseRatio c.text) ∧
    extractComments [borderMatch] = [] :=
  ⟨(extraction_ratio_filters "typescript" (1 / 10) [borderNode] [borderMatch]).1,
   (extraction_ratio_filters "typescript" (1 / 10) [borderNode]
     [borderMatch]).2.2.2.1⟩

end Wakame
